import Mathlib

/-!
Verification of the Magic Formula screener (`magicformula.py`).

Shallow embedding conventions: FMP JSON numbers (Python floats) are modelled
as rationals; a JSON field that is absent, `null` or the empty string is
`none`; Python exceptions are modelled with `Except` where they matter and
the broad `except Exception: return None` wrapper collapses them to `none`.
-/

namespace MagicFormula

/-! ### Symbol universe builder: `list_symbols` -/

/-- A row of the `/stock-screener` response, as read by `list_symbols`. -/
structure ScreenerRow where
  symbol : Option String
  marketCap : Option ℚ
  country : Option String
  deriving DecidableEq, Repr

/-- `mcap = r.get("marketCap") or 0`: a missing or null market cap reads as 0. -/
def screenMcap (r : ScreenerRow) : ℚ := r.marketCap.getD 0

/-- `countries is None or r.get("country") in countries`. -/
def countryOk (countries : Option (List String)) (r : ScreenerRow) : Bool :=
  match countries with
  | none => true
  | some cs =>
    match r.country with
    | some c => cs.contains c
    | none => false

/-- The per-row post-filter condition of `list_symbols`. -/
def keepRow (minMcap : ℚ) (countries : Option (List String)) (r : ScreenerRow) : Bool :=
  match r.symbol with
  | none => false
  | some sym =>
    !(sym == "") &&
    countryOk countries r &&
    !(sym.endsWith "WT" || sym.endsWith "WS" || sym.endsWith "PR") &&
    !(sym.contains '-') &&
    sym.toList.all Char.isAlpha &&
    decide (sym.length ≤ 5) &&
    decide (minMcap ≤ screenMcap r)

/-- `list_symbols` applied to the rows the screener endpoint returned. -/
def list_symbols (rows : List ScreenerRow) (minMcap : ℚ)
    (countries : Option (List String)) : List ScreenerRow :=
  rows.filter (keepRow minMcap countries)

/-! ### Provider data as read by `pull_company` -/

/-- The `/profile` response fields `pull_company` reads. -/
structure Profile where
  companyName : Option String
  company : Option String
  symbol : Option String
  exchangeShortName : Option String
  country : Option String
  sector : Option String
  industry : Option String
  mktCap : Option ℚ
  marketCap : Option ℚ
  deriving DecidableEq, Repr

/-- One period of the `/income-statement` response. -/
structure IncomePeriod where
  operatingIncome : Option ℚ
  deriving DecidableEq, Repr

/-- One period of the `/balance-sheet-statement` response. -/
structure BalancePeriod where
  totalCurrentAssets : Option ℚ
  totalCurrentLiabilities : Option ℚ
  propertyPlantEquipmentNet : Option ℚ
  cashAndShortTermInvestments : Option ℚ
  totalDebt : Option ℚ
  shortTermDebt : Option ℚ
  longTermDebt : Option ℚ
  deriving DecidableEq, Repr

def EXCLUDE_SECTORS : List String :=
  ["Financial Services", "Financial", "Banks", "Insurance",
   "Utilities", "Utility", "Real Estate", "Real Estate Investment Trust", "REIT"]

/-- `prof.get("sector") in EXCLUDE_SECTORS` (a missing sector is not excluded). -/
def sectorExcluded (prof : Profile) : Bool :=
  match prof.sector with
  | some s => EXCLUDE_SECTORS.contains s
  | none => false

/-- `_latest(inc, "operatingIncome")`: first (newest) period's value, if any. -/
def latestOperatingIncome (items : List IncomePeriod) : Option ℚ :=
  items.head?.bind (fun q => q.operatingIncome)

/-- The canonical EBIT computation of `pull_company` (the second assignment
block; the first, unconditionally overwritten block is dead code).
`q.get("operatingIncome") or 0` reads a missing value as 0. -/
def computeEBIT (annual : Bool) (inc : List IncomePeriod) : Option ℚ :=
  if annual then latestOperatingIncome inc
  else if 4 ≤ inc.length then
    some (((inc.take 4).map (fun q => q.operatingIncome.getD 0)).sum)
  else if inc.length ≠ 0 then
    some ((inc.map (fun q => q.operatingIncome.getD 0)).sum * (4 / (inc.length : ℚ)))
  else none

/-- `_latest(bal, "totalCurrentAssets")`. -/
def resolveTCA (bal : List BalancePeriod) : Option ℚ :=
  bal.head?.bind (fun b => b.totalCurrentAssets)

/-- `_latest(bal, "totalCurrentLiabilities")`. -/
def resolveTCL (bal : List BalancePeriod) : Option ℚ :=
  bal.head?.bind (fun b => b.totalCurrentLiabilities)

/-- `_latest(bal, "propertyPlantEquipmentNet")`. -/
def resolvePPE (bal : List BalancePeriod) : Option ℚ :=
  bal.head?.bind (fun b => b.propertyPlantEquipmentNet)

/-- `_latest(bal, "cashAndShortTermInvestments")`. -/
def resolveCash (bal : List BalancePeriod) : Option ℚ :=
  bal.head?.bind (fun b => b.cashAndShortTermInvestments)

/-- `_first_available(bal, ["totalDebt", "shortTermDebt", "longTermDebt"])`. -/
def resolveDebt (bal : List BalancePeriod) : Option ℚ :=
  bal.head?.bind (fun b => b.totalDebt <|> b.shortTermDebt <|> b.longTermDebt)

/-- `prof.get("mktCap") if prof.get("mktCap") is not None else prof.get("marketCap")`. -/
def resolveMcap (prof : Profile) : Option ℚ :=
  match prof.mktCap with
  | some v => some v
  | none => prof.marketCap

/-- The canonical per-symbol output record. -/
structure FinancialRecord where
  ticker : String
  name : Option String
  exchange : Option String
  country : Option String
  sector : Option String
  industry : Option String
  marketCap : ℚ
  EV : ℚ
  EBIT : ℚ
  NWC : ℚ
  PPE_Net : ℚ
  Capital : ℚ
  Cash : ℚ
  TotalDebt : ℚ
  EY : ℚ
  ROC : ℚ
  deriving DecidableEq, Repr

/-- The arithmetic tail of `pull_company` once all seven required fields have
resolved: EV, NWC (floored at 0), Capital, the EV/Capital discards, EY, the
ROC clamp, the EY and minimum-capital sanity discards, and the record. -/
def mkRecord (symbol : String) (prof : Profile)
    (ebit tca tcl ppe cash debt mcap : ℚ) : Option FinancialRecord :=
  let ev := mcap + debt - cash
  let nwc := max ((tca - cash) - (tcl - debt)) 0
  let capital := nwc + ppe
  if ev ≤ 0 then none
  else if capital ≤ 0 then none
  else
    let ey := ebit / ev
    let roc := if 1 < ebit / capital then 1 else ebit / capital
    if 1 / 2 < ey then none
    else if capital < 10000000 then none
    else some {
      ticker := symbol
      name := prof.companyName <|> prof.company <|> prof.symbol
      exchange := prof.exchangeShortName
      country := prof.country
      sector := prof.sector
      industry := prof.industry
      marketCap := mcap
      EV := ev
      EBIT := ebit
      NWC := nwc
      PPE_Net := ppe
      Capital := capital
      Cash := cash
      TotalDebt := debt
      EY := ey
      ROC := roc }

/-- `pull_company` with its three provider responses passed in: `prof?` is the
profile (`none` for an empty dict), `inc` the income periods, `bal` the
balance-sheet periods. Any discard returns `none`. -/
def pull_company (symbol : String) (prof? : Option Profile)
    (inc : List IncomePeriod) (bal : List BalancePeriod) (annual : Bool) :
    Option FinancialRecord :=
  match prof? with
  | none => none
  | some prof =>
    if sectorExcluded prof then none
    else
      match computeEBIT annual inc, resolveTCA bal, resolveTCL bal, resolvePPE bal,
            resolveCash bal, resolveDebt bal, resolveMcap prof with
      | some ebit, some tca, some tcl, some ppe, some cash, some debt, some mcap =>
        mkRecord symbol prof ebit tca tcl ppe cash debt mcap
      | _, _, _, _, _, _, _ => none

/-! ### HTTP client: `fmp_get` and the exception flow of `pull_company` -/

/-- A Python exception, as far as this code distinguishes them. -/
inductive PyError
  | runtimeError (msg : String)
  | httpError (msg : String)
  deriving DecidableEq, Repr

/-- One HTTP response: status code and parsed JSON body. -/
structure HttpResp (α : Type) where
  status : ℕ
  body : α
  deriving DecidableEq, Repr

/-- The retry loop of `fmp_get`: up to `retries` attempts, one response per
attempt; 429 sleeps and retries, `raise_for_status` raises on any status of
400 and above, otherwise the body is returned. An exhausted loop raises
`requests.HTTPError("Failed after retries")`. -/
def fmpAttempts {α : Type} : ℕ → List (HttpResp α) → Except PyError α
  | 0, _ => .error (.httpError "Failed after retries")
  | _ + 1, [] => .error (.httpError "no response from network")
  | n + 1, r :: rest =>
    if r.status = 429 then fmpAttempts n rest
    else if 400 ≤ r.status then .error (.httpError "raise_for_status")
    else .ok r.body

/-- `fmp_get`: reads the API key from the environment on every call and raises
`RuntimeError` when it is empty, before issuing any request; otherwise runs
the retry loop. -/
def fmp_get {α : Type} (apiKey : String) (responses : List (HttpResp α))
    (retries : ℕ) : Except PyError α :=
  if apiKey = "" then
    .error (.runtimeError "FMP_API_KEY not set. export FMP_API_KEY=YOUR_KEY")
  else fmpAttempts retries responses

/-- The provider's pending responses for one symbol's three endpoints. -/
structure ProviderEnv where
  profileResp : List (HttpResp (List Profile))
  incomeAnnualResp : List (HttpResp (List IncomePeriod))
  incomeQuarterResp : List (HttpResp (List IncomePeriod))
  balanceResp : List (HttpResp (List BalancePeriod))
  deriving Repr

/-- `fmp_profile`: `prof[0] if prof else {}` — the empty dict reads as `none`. -/
def fmp_profile (apiKey : String) (env : ProviderEnv) :
    Except PyError (Option Profile) :=
  (fmp_get apiKey env.profileResp 3).map List.head?

/-- `fmp_income`: annual pulls `{period: annual, limit: 1}`, else quarters. -/
def fmp_income (apiKey : String) (env : ProviderEnv) (annual : Bool) :
    Except PyError (List IncomePeriod) :=
  fmp_get apiKey (if annual then env.incomeAnnualResp else env.incomeQuarterResp) 3

/-- `fmp_balance`: latest quarterly balance sheet. -/
def fmp_balance (apiKey : String) (env : ProviderEnv) :
    Except PyError (List BalancePeriod) :=
  fmp_get apiKey env.balanceResp 3

/-- The body of `pull_company` with its provider calls explicit: an exception
raised by any call propagates as `.error`. -/
def pull_companyE (apiKey : String) (env : ProviderEnv) (symbol : String)
    (annual : Bool) : Except PyError (Option FinancialRecord) := do
  let prof? ← fmp_profile apiKey env
  match prof? with
  | none => return none
  | some prof =>
    if sectorExcluded prof then return none
    else do
      let inc ← fmp_income apiKey env annual
      let bal ← fmp_balance apiKey env
      return pull_company symbol (some prof) inc bal annual

/-- `pull_company` as called: its `try ... except Exception: return None`
wrapper turns every raised exception into a discard. -/
def pull_company_full (apiKey : String) (env : ProviderEnv) (symbol : String)
    (annual : Bool) : Option FinancialRecord :=
  match pull_companyE apiKey env symbol annual with
  | .error _ => none
  | .ok r => r

/-! ### Result cache: `pull_company_cached` -/

/-- The state `pull_company_cached` sees: the cache file for the symbol (its
deserialized record and mtime, in seconds), the current time, and whether a
`write_text` on the cache file would succeed. -/
structure CacheContext where
  entry : Option (FinancialRecord × ℚ)
  now : ℚ
  writeOk : Bool
  deriving DecidableEq, Repr

/-- What a call to `pull_company_cached` does: returns a value, or raises. -/
inductive CacheOutcome
  | returned (r : Option FinancialRecord)
  | raised
  deriving DecidableEq, Repr

/-- `timedelta(days=7).total_seconds()`. -/
def sevenDays : ℚ := 604800

/-- Whether the cache file exists and its age is below 7 days. -/
def cacheFresh (ctx : CacheContext) : Bool :=
  match ctx.entry with
  | some (_, mtime) => decide (ctx.now - mtime < sevenDays)
  | none => false

/-- The recompute path: derive, and if a record came back write it to the
cache file — a failing `write_text` raises out of the function, the record
is never returned. -/
def cacheRecompute (ctx : CacheContext) (derived : Option FinancialRecord) :
    CacheOutcome :=
  match derived with
  | some _ => if ctx.writeOk then .returned derived else .raised
  | none => .returned none

/-- `pull_company_cached`: serve a cache entry younger than 7 days, otherwise
recompute (and write back). `derived` stands for what `pull_company` returns
on the recompute path. -/
def pull_company_cached (ctx : CacheContext) (derived : Option FinancialRecord) :
    CacheOutcome :=
  match ctx.entry with
  | some (rec, mtime) =>
    if ctx.now - mtime < sevenDays then .returned (some rec)
    else cacheRecompute ctx derived
  | none => cacheRecompute ctx derived

/-! ### Health checks: `check_financial_health` -/

/-- Balance-sheet fields read by the debt/revenue check. -/
structure BSQuarter where
  totalStockholdersEquity : Option ℚ
  totalDebt : Option ℚ
  deriving DecidableEq, Repr

/-- Income-statement field read by the debt/revenue check. -/
structure ISQuarter where
  revenue : Option ℚ
  deriving DecidableEq, Repr

/-- Cash-flow fields read by the cash-flow quality check. -/
structure CFQuarter where
  operatingCashFlow : Option ℚ
  netIncome : Option ℚ
  deriving DecidableEq, Repr

/-- `all(p(xs[i], xs[i+1]) for i in range(len(xs)-1))`. -/
def adjAll {α : Type} (p : α → α → Bool) : List α → Bool
  | [] => true
  | [_] => true
  | a :: b :: rest => p a b && adjAll p (b :: rest)

/-- Per-quarter debt-to-equity; `float('inf')` is modelled as `⊤`. -/
def deRatio (q : BSQuarter) : WithTop ℚ :=
  let equity := q.totalStockholdersEquity.getD 0
  let debt := q.totalDebt.getD 0
  if 0 < equity then ((debt / equity : ℚ) : WithTop ℚ) else ⊤

/-- The debt/revenue check body. `bsl?`/`isl?` are the two fetches, `none`
when the fetch raised; `some none` in the result is the `None` (insufficient
data or exception) outcome. -/
def debtRevenueResult (bsl? : Option (List BSQuarter))
    (isl? : Option (List ISQuarter)) : Option Bool :=
  match bsl?, isl? with
  | some bsl, some isl =>
    if bsl ≠ [] ∧ isl ≠ [] ∧ 3 ≤ bsl.length ∧ 3 ≤ isl.length then
      let deRatios := bsl.reverse.map deRatio
      let revenues := isl.reverse.map (fun q => q.revenue.getD 0)
      some (adjAll (fun a b => decide (b ≤ a)) deRatios &&
            adjAll (fun a b => decide (a ≤ b)) revenues)
    else none
  | _, _ => none

/-- The cash-flow quality check body: OCF strictly above net income in every
period of the window, requiring at least 4 periods. -/
def cashflowQualityResult (cf? : Option (List CFQuarter)) : Option Bool :=
  match cf? with
  | some cf =>
    if cf ≠ [] ∧ 4 ≤ cf.length then
      some (cf.all (fun q => decide (q.netIncome.getD 0 < q.operatingCashFlow.getD 0)))
    else none
  | none => none

/-- The dict `check_financial_health` returns: a check key is absent (`none`)
when the check is disabled, `some none` when it ran to `None` (unknown). -/
structure HealthResult where
  symbol : String
  passes_all : Bool
  debt_revenue_check : Option (Option Bool)
  cashflow_quality_check : Option (Option Bool)
  deriving DecidableEq, Repr

/-- `check_financial_health` with its fetches passed in (`none` = the fetch
raised). Starts at `passes_all = True`; each enabled check stores its result
and downgrades `passes_all` exactly when that result `is False`. -/
def check_financial_health (symbol : String)
    (check_debt_revenue check_cashflow_quality : Bool)
    (bsl? : Option (List BSQuarter)) (isl? : Option (List ISQuarter))
    (cf? : Option (List CFQuarter)) : HealthResult :=
  let res0 : HealthResult := ⟨symbol, true, none, none⟩
  let res1 :=
    if check_debt_revenue then
      let c := debtRevenueResult bsl? isl?
      { res0 with debt_revenue_check := some c
                  passes_all := if c = some false then false else res0.passes_all }
    else res0
  if check_cashflow_quality then
    let c := cashflowQualityResult cf?
    { res1 with cashflow_quality_check := some c
                passes_all := if c = some false then false else res1.passes_all }
  else res1

/-! ### Ranking engine: `magic_formula_rank` -/

/-- A row of the DataFrame handed to `magic_formula_rank`: the two ranked
columns (possibly NaN, i.e. `none`) plus the row's identity. -/
structure RRow where
  ticker : String
  EY : Option ℚ
  ROC : Option ℚ
  deriving DecidableEq, Repr

/-- A row kept by `dropna(subset=["EY", "ROC"])`. -/
structure Row where
  ticker : String
  EY : ℚ
  ROC : ℚ
  deriving DecidableEq, Repr

/-- A row of the returned DataFrame, with the three added columns. -/
structure RankedRow where
  ticker : String
  EY : ℚ
  ROC : ℚ
  EY_rank : ℕ
  ROC_rank : ℕ
  MF_score : ℕ
  deriving DecidableEq, Repr

/-- `df.dropna(subset=["EY", "ROC"])`, per row. -/
def dropna (r : RRow) : Option Row :=
  match r.EY, r.ROC with
  | some e, some c => some ⟨r.ticker, e, c⟩
  | _, _ => none

def keptRows (df : List RRow) : List Row := df.filterMap dropna

/-- pandas `Series.rank(ascending=False, method="min")`: the rank of a value
is 1 plus the number of column values strictly greater than it. -/
def minRankDesc (vals : List ℚ) (v : ℚ) : ℕ :=
  1 + vals.countP (fun w => decide (v < w))

/-- The two `rank` columns and `MF_score = EY_rank + ROC_rank` for one row. -/
def rankRow (kept : List Row) (r : Row) : RankedRow :=
  let er := minRankDesc (kept.map (fun s => s.EY)) r.EY
  let cr := minRankDesc (kept.map (fun s => s.ROC)) r.ROC
  { ticker := r.ticker, EY := r.EY, ROC := r.ROC,
    EY_rank := er, ROC_rank := cr, MF_score := er + cr }

/-- The DataFrame after the three column assignments, before the sort. -/
def rankedOf (df : List RRow) : List RankedRow :=
  (keptRows df).map (rankRow (keptRows df))

/-- The key order of `df.sort_values(["MF_score", "EY_rank", "ROC_rank"])`:
ascending lexicographic on the three columns. -/
def MfLe (a b : RankedRow) : Prop :=
  a.MF_score < b.MF_score ∨
    (a.MF_score = b.MF_score ∧
      (a.EY_rank < b.EY_rank ∨
        (a.EY_rank = b.EY_rank ∧ a.ROC_rank ≤ b.ROC_rank)))

instance : DecidableRel MfLe := fun a b => by unfold MfLe; infer_instance

instance : IsTotal RankedRow MfLe := by
  constructor; intro a b; unfold MfLe; omega

instance : IsTrans RankedRow MfLe := by
  constructor; intro a b c; unfold MfLe; omega

/-- `magic_formula_rank`: drop NaN rows, add the rank columns, and sort by
`["MF_score", "EY_rank", "ROC_rank"]` (pandas' multi-key sort is a stable
lexicographic sort, modelled by a stable insertion sort). -/
def magic_formula_rank (df : List RRow) : List RankedRow :=
  List.insertionSort MfLe (rankedOf df)

/-! ### Helper lemmas about `mkRecord` and `pull_company` -/

/-- Everything `mkRecord` guarantees about a record it returns. -/
theorem mkRecord_spec {symbol : String} {prof : Profile}
    {ebit tca tcl ppe cash debt mcap : ℚ} {r : FinancialRecord}
    (h : mkRecord symbol prof ebit tca tcl ppe cash debt mcap = some r) :
    r.marketCap = mcap ∧ r.EBIT = ebit ∧ r.Cash = cash ∧ r.TotalDebt = debt ∧
    r.PPE_Net = ppe ∧
    r.EV = mcap + debt - cash ∧
    r.NWC = max ((tca - cash) - (tcl - debt)) 0 ∧
    r.Capital = r.NWC + ppe ∧
    r.EY = ebit / r.EV ∧
    r.ROC = (if 1 < ebit / r.Capital then 1 else ebit / r.Capital) ∧
    0 < r.EV ∧ 0 < r.Capital ∧ r.EY ≤ 1 / 2 ∧ (10000000 : ℚ) ≤ r.Capital := by
  simp only [mkRecord] at h
  split_ifs at h with h1 h2 h3 h4 h5 <;>
    try exact Option.noConfusion h
  all_goals obtain rfl := Option.some_inj.mp h
  all_goals exact ⟨rfl, rfl, rfl, rfl, rfl, rfl, rfl, rfl, rfl, by simp [h5],
    not_le.mp h1, not_le.mp h2, not_lt.mp h3, not_lt.mp h4⟩

/-- A successful `pull_company` decomposes into a present profile, a
non-excluded sector, all seven resolved inputs and a successful `mkRecord`. -/
theorem pull_company_eq_some {symbol : String} {prof? : Option Profile}
    {inc : List IncomePeriod} {bal : List BalancePeriod} {annual : Bool}
    {r : FinancialRecord} (h : pull_company symbol prof? inc bal annual = some r) :
    ∃ prof, prof? = some prof ∧ sectorExcluded prof = false ∧
    ∃ ebit tca tcl ppe cash debt mcap,
      computeEBIT annual inc = some ebit ∧ resolveTCA bal = some tca ∧
      resolveTCL bal = some tcl ∧ resolvePPE bal = some ppe ∧
      resolveCash bal = some cash ∧ resolveDebt bal = some debt ∧
      resolveMcap prof = some mcap ∧
      mkRecord symbol prof ebit tca tcl ppe cash debt mcap = some r := by
  cases prof? with
  | none => simp [pull_company] at h
  | some prof =>
    simp only [pull_company] at h
    by_cases hs : sectorExcluded prof = true
    · simp [hs] at h
    · rw [Bool.not_eq_true] at hs
      simp only [hs, Bool.false_eq_true, if_false] at h
      split at h
      · rename_i ebit tca tcl ppe cash debt mcap h1 h2 h3 h4 h5 h6 h7
        exact ⟨prof, rfl, hs, ebit, tca, tcl, ppe, cash, debt, mcap,
          h1, h2, h3, h4, h5, h6, h7, h⟩
      · simp at h

/-! ### C2: output invariants of the per-symbol derivation -/

/-- C2 (amended): every record `pull_company` returns satisfies `EV > 0`,
`Capital >= 10,000,000`, `EY <= 0.5` and `ROC <= 1.0` (clamped); there is no
lower bound on `ROC` — a negative EBIT yields a negative `ROC` and the record
is kept. -/
theorem pull_company_output_invariants (symbol : String) (prof? : Option Profile)
    (inc : List IncomePeriod) (bal : List BalancePeriod) (annual : Bool)
    (r : FinancialRecord) (h : pull_company symbol prof? inc bal annual = some r) :
    0 < r.EV ∧ (10000000 : ℚ) ≤ r.Capital ∧ r.EY ≤ 1 / 2 ∧ r.ROC ≤ 1 := by
  obtain ⟨prof, -, -, ebit, tca, tcl, ppe, cash, debt, mcap,
    -, -, -, -, -, -, -, hmk⟩ := pull_company_eq_some h
  obtain ⟨-, -, -, -, -, -, -, -, -, hroc, hev, -, hey, hcap⟩ := mkRecord_spec hmk
  refine ⟨hev, hcap, hey, ?_⟩
  rw [hroc]
  split_ifs with h1
  · exact le_refl 1
  · exact not_lt.mp h1

/-- The concrete input refuting C2 as stated: a profitable-looking company
with negative operating income. -/
def c2prof : Profile :=
  ⟨some "Acme", none, some "ACME", some "NASDAQ", some "US", none,
   some "Software", some 20000000, none⟩

def c2inc : List IncomePeriod := [⟨some (-1000000)⟩]

def c2bal : List BalancePeriod :=
  [⟨some 20000000, some 0, some 0, some 0, some 0, none, none⟩]

def c2rec : FinancialRecord :=
  { ticker := "ACME", name := some "Acme", exchange := some "NASDAQ",
    country := some "US", sector := none, industry := some "Software",
    marketCap := 20000000, EV := 20000000, EBIT := -1000000, NWC := 20000000,
    PPE_Net := 0, Capital := 20000000, Cash := 0, TotalDebt := 0,
    EY := -(1 / 20), ROC := -(1 / 20) }

/-- C2 counterexample: `pull_company` returns a record whose `ROC` is
negative, so `0 <= ROC` does not hold for every output record. -/
theorem pull_company_negative_roc_output :
    pull_company "ACME" (some c2prof) c2inc c2bal true = some c2rec ∧
    c2rec.ROC < 0 := by
  constructor
  · simp only [pull_company, c2prof, c2inc, c2bal, sectorExcluded, EXCLUDE_SECTORS,
      computeEBIT, latestOperatingIncome, resolveTCA, resolveTCL, resolvePPE,
      resolveCash, resolveDebt, resolveMcap, mkRecord, c2rec, List.head?, Option.bind]
    norm_num
  · norm_num [c2rec]

/-- C2 witness: the amended invariants hold of a concrete output record. -/
theorem pull_company_output_invariants_witness :
    0 < c2rec.EV ∧ (10000000 : ℚ) ≤ c2rec.Capital ∧ c2rec.EY ≤ 1 / 2 ∧
    c2rec.ROC ≤ 1 :=
  pull_company_output_invariants "ACME" (some c2prof) c2inc c2bal true c2rec
    (by
      simp only [pull_company, c2prof, c2inc, c2bal, sectorExcluded,
        EXCLUDE_SECTORS, computeEBIT, latestOperatingIncome, resolveTCA,
        resolveTCL, resolvePPE, resolveCash, resolveDebt, resolveMcap, mkRecord,
        c2rec, List.head?, Option.bind]
      norm_num)

/-! ### C7: the enterprise-value formula and its discard rule -/

/-- C7: every returned record satisfies `EV = marketCap + TotalDebt - Cash`
exactly and `EV > 0`; and whenever the resolved inputs give
`marketCap + TotalDebt - Cash <= 0` the symbol is discarded. -/
theorem pull_company_EV_formula (symbol : String) (prof? : Option Profile)
    (inc : List IncomePeriod) (bal : List BalancePeriod) (annual : Bool) :
    (∀ r, pull_company symbol prof? inc bal annual = some r →
      r.EV = r.marketCap + r.TotalDebt - r.Cash ∧ 0 < r.EV) ∧
    (∀ prof mcap debt cash, prof? = some prof →
      resolveMcap prof = some mcap → resolveDebt bal = some debt →
      resolveCash bal = some cash → mcap + debt - cash ≤ 0 →
      pull_company symbol prof? inc bal annual = none) := by
  constructor
  · intro r h
    obtain ⟨prof, -, -, ebit, tca, tcl, ppe, cash, debt, mcap,
      -, -, -, -, -, -, -, hmk⟩ := pull_company_eq_some h
    obtain ⟨hmc, -, hcash, hdebt, -, hEV, -, -, -, -, hev, -⟩ := mkRecord_spec hmk
    rw [hEV, hmc, hcash, hdebt] at *
    exact ⟨hEV, hev⟩
  · intro prof mcap debt cash hprof hm hd hc hev
    subst hprof
    simp only [pull_company]
    by_cases hs : sectorExcluded prof = true
    · simp [hs]
    · rw [Bool.not_eq_true] at hs
      simp only [hs, Bool.false_eq_true, if_false]
      rcases he : computeEBIT annual inc with _ | ebit <;>
        rcases ht : resolveTCA bal with _ | tca <;>
        rcases hl : resolveTCL bal with _ | tcl <;>
        rcases hp : resolvePPE bal with _ | ppe <;>
        simp [he, ht, hl, hp, hm, hd, hc, mkRecord, hev]

/-! ### C9: the stored NWC is the clamped difference -/

/-- C9: the stored `NWC` field of every returned record is the raw working
capital difference floored at zero (hence non-negative), and
`Capital = NWC + PPE_Net` exactly. -/
theorem pull_company_NWC_spec (symbol : String) (prof? : Option Profile)
    (inc : List IncomePeriod) (bal : List BalancePeriod) (annual : Bool)
    (r : FinancialRecord) (tca tcl : ℚ)
    (htca : resolveTCA bal = some tca) (htcl : resolveTCL bal = some tcl)
    (h : pull_company symbol prof? inc bal annual = some r) :
    r.NWC = max ((tca - r.Cash) - (tcl - r.TotalDebt)) 0 ∧
    0 ≤ r.NWC ∧ r.Capital = r.NWC + r.PPE_Net := by
  obtain ⟨prof, -, -, ebit, tca2, tcl2, ppe, cash, debt, mcap,
    -, htca2, htcl2, -, -, -, -, hmk⟩ := pull_company_eq_some h
  obtain ⟨-, -, hcash, hdebt, hppe, -, hNWC, hCap, -⟩ := mkRecord_spec hmk
  obtain rfl : tca2 = tca := by rw [htca] at htca2; exact (Option.some_inj.mp htca2).symm
  obtain rfl : tcl2 = tcl := by rw [htcl] at htcl2; exact (Option.some_inj.mp htcl2).symm
  refine ⟨by rw [hNWC, hcash, hdebt], ?_, by rw [hCap, hppe]⟩
  rw [hNWC]
  exact le_max_right _ _

def c9prof : Profile :=
  ⟨some "NwcCo", none, some "NWCO", some "NYSE", some "US", none,
   some "Hardware", some 30000000, none⟩

def c9inc : List IncomePeriod := [⟨some 2000000⟩]

def c9bal : List BalancePeriod :=
  [⟨some 15000000, some 1000000, some 5000000, some 2000000, some 3000000, none, none⟩]

def c9rec : FinancialRecord :=
  { ticker := "NWCO", name := some "NwcCo", exchange := some "NYSE",
    country := some "US", sector := none, industry := some "Hardware",
    marketCap := 30000000, EV := 31000000, EBIT := 2000000, NWC := 15000000,
    PPE_Net := 5000000, Capital := 20000000, Cash := 2000000,
    TotalDebt := 3000000, EY := 2 / 31, ROC := 1 / 10 }

/-- C9 witness: the NWC invariants hold of a concrete output record. -/
theorem pull_company_NWC_spec_witness :
    c9rec.NWC = max ((15000000 - c9rec.Cash) - (1000000 - c9rec.TotalDebt)) 0 ∧
    0 ≤ c9rec.NWC ∧ c9rec.Capital = c9rec.NWC + c9rec.PPE_Net :=
  pull_company_NWC_spec "NWCO" (some c9prof) c9inc c9bal true c9rec
    15000000 1000000 rfl rfl
    (by
      simp only [pull_company, c9prof, c9inc, c9bal, sectorExcluded,
        EXCLUDE_SECTORS, computeEBIT, latestOperatingIncome, resolveTCA,
        resolveTCL, resolvePPE, resolveCash, resolveDebt, resolveMcap, mkRecord,
        c9rec, List.head?, Option.bind]
      norm_num)

/-! ### C10: null market cap rows are excluded from the universe -/

/-- C10: a screener row with a missing or null `marketCap` is treated as
having market cap 0, so for every strictly positive minimum-market-cap
threshold it is excluded from the returned universe. -/
theorem list_symbols_null_mcap_excluded (rows : List ScreenerRow)
    (r : ScreenerRow) (minMcap : ℚ) (countries : Option (List String))
    (hmem : r ∈ rows) (hnull : r.marketCap = none) (hpos : 0 < minMcap) :
    screenMcap r = 0 ∧ r ∉ list_symbols rows minMcap countries := by
  have h0 : screenMcap r = 0 := by rw [screenMcap, hnull]; rfl
  refine ⟨h0, fun hin => ?_⟩
  have hk : keepRow minMcap countries r = true := (List.mem_filter.mp hin).2
  cases hsym : r.symbol with
  | none => simp [keepRow, hsym] at hk
  | some sym =>
    simp only [keepRow, hsym, Bool.and_eq_true, decide_eq_true_eq] at hk
    have hle : minMcap ≤ screenMcap r := hk.2
    rw [h0] at hle
    linarith

def c10row : ScreenerRow := ⟨some "ABC", none, some "US"⟩

/-- C10 witness: a concrete null-market-cap row is excluded at a positive
threshold. -/
theorem list_symbols_null_mcap_excluded_witness :
    screenMcap c10row = 0 ∧ c10row ∉ list_symbols [c10row] 50000000 none :=
  list_symbols_null_mcap_excluded [c10row] c10row 50000000 none (by simp)
    rfl (by norm_num)

/-! ### C8: `passes_all` semantics of the health checks -/

/-- C8: `passes_all` is false exactly when some enabled check ran and stored
`False`; an `unknown` (`None`) result never downgrades it. -/
theorem check_financial_health_passes_all_iff (symbol : String)
    (cdr ccf : Bool) (bsl? : Option (List BSQuarter))
    (isl? : Option (List ISQuarter)) (cf? : Option (List CFQuarter)) :
    (check_financial_health symbol cdr ccf bsl? isl? cf?).passes_all = false ↔
      ((check_financial_health symbol cdr ccf bsl? isl? cf?).debt_revenue_check =
          some (some false) ∨
        (check_financial_health symbol cdr ccf bsl? isl? cf?).cashflow_quality_check =
          some (some false)) := by
  by_cases h1 : debtRevenueResult bsl? isl? = some false <;>
    by_cases h2 : cashflowQualityResult cf? = some false <;>
    cases cdr <;> cases ccf <;>
    simp [check_financial_health, h1, h2]

/-- C8 witness: with both checks enabled but both fetches raising (so both
results are `unknown`), `passes_all` stays true. -/
theorem check_financial_health_unknown_witness :
    (check_financial_health "X" true true none none none).passes_all = true := by
  have h := check_financial_health_passes_all_iff "X" true true none none none
  rcases Bool.eq_false_or_eq_true
      (check_financial_health "X" true true none none none).passes_all with ht | hf
  swap
  · exfalso
    rcases h.mp hf with hd | hc
    · rw [show (check_financial_health "X" true true none none none).debt_revenue_check
          = some none from rfl] at hd
      exact Option.noConfusion (Option.some_inj.mp hd)
    · rw [show (check_financial_health "X" true true none none none).cashflow_quality_check
          = some none from rfl] at hc
      exact Option.noConfusion (Option.some_inj.mp hc)
  · exact ht

/-! ### C5: the EBIT computation -/

/-- C5: EBIT is the latest annual period's operating income in annual mode;
the sum of the 4 most recent quarters in trailing mode with at least 4
periods; the annualized `sum * 4/count` with 1–3 periods; and with no periods
it is undefined and the record is discarded. -/
theorem computeEBIT_spec (annual : Bool) (symbol : String)
    (prof? : Option Profile) (inc : List IncomePeriod) (bal : List BalancePeriod) :
    (∀ q rest, inc = q :: rest → computeEBIT true inc = q.operatingIncome) ∧
    (4 ≤ inc.length →
      computeEBIT false inc =
        some (((inc.take 4).map (fun q => q.operatingIncome.getD 0)).sum)) ∧
    (1 ≤ inc.length → inc.length ≤ 3 →
      computeEBIT false inc =
        some ((inc.map (fun q => q.operatingIncome.getD 0)).sum *
          (4 / (inc.length : ℚ)))) ∧
    (inc = [] → computeEBIT annual inc = none) ∧
    (computeEBIT annual inc = none →
      pull_company symbol prof? inc bal annual = none) := by
  refine ⟨?_, ?_, ?_, ?_, ?_⟩
  · intro q rest hq
    subst hq
    simp [computeEBIT, latestOperatingIncome]
  · intro h
    simp [computeEBIT, h]
  · intro h1 h3
    have h4 : ¬ 4 ≤ inc.length := by omega
    have hne : inc.length ≠ 0 := by omega
    simp [computeEBIT, h4, hne]
  · intro h
    subst h
    cases annual <;> simp [computeEBIT, latestOperatingIncome]
  · intro h
    cases prof? with
    | none => simp [pull_company]
    | some prof =>
      by_cases hs : sectorExcluded prof = true
      · simp [pull_company, hs]
      · rw [Bool.not_eq_true] at hs
        simp [pull_company, hs, h]

def c5inc : List IncomePeriod := [⟨some 1⟩, ⟨some 2⟩, ⟨some 3⟩, ⟨some 4⟩]

/-- C5 witness: trailing mode with exactly 4 quarters sums them. -/
theorem computeEBIT_spec_witness : computeEBIT false c5inc = some 10 :=
  ((computeEBIT_spec false "X" none c5inc []).2.1 (by decide)).trans
    (by simp [c5inc]; norm_num)

/-! ### C3: a missing API key is a swallowed per-symbol error -/

def c3env : ProviderEnv :=
  ⟨[⟨200, []⟩], [⟨200, []⟩], [⟨200, []⟩], [⟨200, []⟩]⟩

/-- C3 counterexample: with the credential absent, the very first provider
call of a per-symbol derivation raises `RuntimeError` (a per-call error,
nothing aborted at startup), and the derivation's `except Exception` swallows
it into a per-symbol discard — contradicting "never surfaced or swallowed as
a per-call or per-symbol error". -/
theorem missing_key_not_fatal_at_startup :
    fmp_get "" c3env.profileResp 3 =
      .error (.runtimeError "FMP_API_KEY not set. export FMP_API_KEY=YOUR_KEY") ∧
    pull_company_full "" c3env "AAPL" false = none := by
  exact ⟨rfl, rfl⟩

/-- C3 (amended): the missing credential is not checked at startup; every
`fmp_get` call raises `RuntimeError`, so the per-symbol derivation errors on
its first fetch and its exception wrapper turns that into a per-symbol
discard. -/
theorem missing_key_swallowed_per_symbol (env : ProviderEnv) (symbol : String)
    (annual : Bool) :
    (∀ (α : Type) (responses : List (HttpResp α)) (retries : ℕ),
      fmp_get "" responses retries =
        .error (.runtimeError "FMP_API_KEY not set. export FMP_API_KEY=YOUR_KEY")) ∧
    pull_companyE "" env symbol annual =
      .error (.runtimeError "FMP_API_KEY not set. export FMP_API_KEY=YOUR_KEY") ∧
    pull_company_full "" env symbol annual = none := by
  have hg : ∀ (α : Type) (responses : List (HttpResp α)) (retries : ℕ),
      fmp_get "" responses retries =
        .error (.runtimeError "FMP_API_KEY not set. export FMP_API_KEY=YOUR_KEY") := by
    intro α responses retries
    simp [fmp_get]
  have he : pull_companyE "" env symbol annual =
      .error (.runtimeError "FMP_API_KEY not set. export FMP_API_KEY=YOUR_KEY") := by
    simp only [pull_companyE, fmp_profile, hg, Except.map]
    rfl
  exact ⟨hg, he, by simp [pull_company_full, he]⟩

/-- C3 witness: the amended behavior at a concrete environment. -/
theorem missing_key_swallowed_per_symbol_witness :
    pull_companyE "" c3env "MSFT" true =
      .error (.runtimeError "FMP_API_KEY not set. export FMP_API_KEY=YOUR_KEY") ∧
    pull_company_full "" c3env "MSFT" true = none :=
  ⟨(missing_key_swallowed_per_symbol c3env "MSFT" true).2.1,
   (missing_key_swallowed_per_symbol c3env "MSFT" true).2.2⟩

/-! ### C4: a failing cache write aborts the per-symbol call -/

def c4rec : FinancialRecord :=
  ⟨"AAA", none, none, none, none, none, 0, 1, 1, 0, 1, 1, 0, 0, 1, 1⟩

def c4ctx : CacheContext := ⟨none, 0, false⟩

/-- C4 counterexample: on a cache miss with a successfully derived record, a
failing cache write raises out of `pull_company_cached` — the derived record
is not returned. -/
theorem cache_write_failure_aborts :
    pull_company_cached c4ctx (some c4rec) = .raised ∧
    pull_company_cached c4ctx (some c4rec) ≠ .returned (some c4rec) := by
  refine ⟨rfl, fun h => ?_⟩
  rw [show pull_company_cached c4ctx (some c4rec) = .raised from rfl] at h
  exact CacheOutcome.noConfusion h

/-- C4 (amended): when the cache entry is absent or stale and a record was
derived, `pull_company_cached` raises if the cache write fails (aborting the
per-symbol call instead of returning the record), and returns the record
only when the write succeeds. -/
theorem cache_write_failure_raises (ctx : CacheContext) (r : FinancialRecord) :
    (cacheFresh ctx = false → ctx.writeOk = false →
      pull_company_cached ctx (some r) = .raised) ∧
    (cacheFresh ctx = false → ctx.writeOk = true →
      pull_company_cached ctx (some r) = .returned (some r)) := by
  constructor <;> intro hf hw
  all_goals
    cases hctx : ctx.entry with
    | none => simp [pull_company_cached, hctx, cacheRecompute, hw]
    | some p =>
      obtain ⟨rec, mtime⟩ := p
      have hstale : ¬ (ctx.now - mtime < sevenDays) := by
        intro hlt
        have hfr : cacheFresh ctx = true := by
          simp only [cacheFresh, hctx, decide_eq_true_eq]
          exact hlt
        rw [hf] at hfr
        exact Bool.noConfusion hfr
      simp [pull_company_cached, hctx, hstale, cacheRecompute, hw]

/-- C4 witness: the amended behavior at a concrete cache state. -/
theorem cache_write_failure_raises_witness :
    pull_company_cached c4ctx (some c4rec) = CacheOutcome.raised :=
  (cache_write_failure_raises c4ctx c4rec).1 rfl rfl

/-! ### C1: the ranking algorithm -/

def c1df : List RRow :=
  [⟨"A", some (1/10), some 0⟩, ⟨"B", some (1/10), some 0⟩, ⟨"C", some (1/20), some 0⟩]

/-- C1: `magic_formula_rank` drops rows lacking EY or ROC, assigns the rank
columns by descending minimum-method competition ranking (rank = 1 + number
of strictly greater column values), sets `MF_score` as their sum, and returns
the rows sorted ascending by `(MF_score, EY_rank, ROC_rank)`; on EY values
`[0.10, 0.10, 0.05]` the EY ranks are `[1, 1, 3]`. -/
theorem magic_formula_rank_spec (df : List RRow) :
    (magic_formula_rank df).Perm ((keptRows df).map (rankRow (keptRows df))) ∧
    List.Sorted MfLe (magic_formula_rank df) ∧
    (∀ r ∈ magic_formula_rank df,
      r.EY_rank = 1 + ((keptRows df).map (fun s => s.EY)).countP
        (fun w => decide (r.EY < w)) ∧
      r.ROC_rank = 1 + ((keptRows df).map (fun s => s.ROC)).countP
        (fun w => decide (r.ROC < w)) ∧
      r.MF_score = r.EY_rank + r.ROC_rank) ∧
    ((rankedOf c1df).map (fun r => r.EY_rank) = [1, 1, 3]) := by
  refine ⟨List.perm_insertionSort MfLe (rankedOf df),
    List.sorted_insertionSort MfLe (rankedOf df), ?_, ?_⟩
  · intro r hr
    have hr2 : r ∈ rankedOf df :=
      (List.perm_insertionSort MfLe (rankedOf df)).mem_iff.mp hr
    obtain ⟨x, hx, rfl⟩ := List.mem_map.mp hr2
    exact ⟨rfl, rfl, rfl⟩
  · simp only [rankedOf, keptRows, c1df, dropna, List.filterMap, rankRow,
      minRankDesc, List.map, List.countP_cons, List.countP_nil]
    norm_num

/-! ### C6: order-sensitivity of the ranking -/

def c6rowA : RRow := ⟨"A", some 1, some 2⟩

def c6rowB : RRow := ⟨"B", some 1, some 2⟩

def c6rowC : RRow := ⟨"C", some 2, some 3⟩

/-- C6 counterexample: two permutations of the same two records (tied on both
EY and ROC) produce different output sequences, because the stable sort keeps
ties in input order. -/
theorem magic_formula_rank_order_dependent :
    List.Perm [c6rowA, c6rowB] [c6rowB, c6rowA] ∧
    magic_formula_rank [c6rowA, c6rowB] ≠ magic_formula_rank [c6rowB, c6rowA] := by
  constructor
  · decide
  · decide

/-- Strict lexicographic order on the three sort-key columns. -/
def MfLt (a b : RankedRow) : Prop :=
  a.MF_score < b.MF_score ∨
    (a.MF_score = b.MF_score ∧
      (a.EY_rank < b.EY_rank ∨
        (a.EY_rank = b.EY_rank ∧ a.ROC_rank < b.ROC_rank)))

/-- Strictly-less-or-equal (as rows) on the sort key. -/
def MfLtEq (a b : RankedRow) : Prop := MfLt a b ∨ a = b

instance : IsAntisymm RankedRow MfLtEq := by
  constructor
  intro a b hab hba
  rcases hab with hab | rfl
  · rcases hba with hba | rfl
    · exfalso
      unfold MfLt at hab hba
      omega
    · rfl
  · rfl

theorem mfle_cases (a b : RankedRow) (h : MfLe a b) :
    MfLt a b ∨ (a.MF_score = b.MF_score ∧ a.EY_rank = b.EY_rank ∧
      a.ROC_rank = b.ROC_rank) := by
  unfold MfLe MfLt at *
  omega

/-- `countP` is strictly monotone when `q` implies `p` on the list and some
member satisfies `p` but not `q`. -/
theorem countP_lt_countP {α : Type} (l : List α) (p q : α → Bool)
    (hpq : ∀ a ∈ l, q a = true → p a = true) (y : α) (hy : y ∈ l)
    (hpy : p y = true) (hqy : q y = false) :
    l.countP q < l.countP p := by
  induction l with
  | nil => cases hy
  | cons a t ih =>
    rcases List.mem_cons.mp hy with rfl | hyt
    · have hle : t.countP q ≤ t.countP p :=
        List.countP_mono_left (fun x hx => hpq x (List.mem_cons_of_mem _ hx))
      simp [List.countP_cons, hpy, hqy]
      omega
    · have ihh := ih (fun x hx h => hpq x (List.mem_cons_of_mem _ hx) h) hyt
      by_cases hqa : q a = true
      · have hpa : p a = true := hpq a (List.mem_cons.mpr (Or.inl rfl)) hqa
        simp [List.countP_cons, hqa, hpa]
        omega
      · rw [Bool.not_eq_true] at hqa
        by_cases hpa : p a = true
        · simp [List.countP_cons, hqa, hpa]
          omega
        · rw [Bool.not_eq_true] at hpa
          simp [List.countP_cons, hqa, hpa]
          omega

/-- Descending min-rank is strictly decreasing across member values. -/
theorem minRankDesc_strict {vals : List ℚ} {v1 v2 : ℚ} (h2 : v2 ∈ vals)
    (hlt : v1 < v2) : minRankDesc vals v2 < minRankDesc vals v1 := by
  have := countP_lt_countP vals (fun w => decide (v1 < w))
    (fun w => decide (v2 < w))
    (fun a _ ha => by
      rw [decide_eq_true_eq] at ha ⊢
      exact lt_trans hlt ha)
    v2 h2 (by rw [decide_eq_true_eq]; exact hlt)
    (by rw [decide_eq_false_iff_not]; exact lt_irrefl v2)
  unfold minRankDesc
  omega

/-- Descending min-rank is injective on member values. -/
theorem minRankDesc_inj {vals : List ℚ} {v1 v2 : ℚ}
    (h1 : v1 ∈ vals) (h2 : v2 ∈ vals)
    (h : minRankDesc vals v1 = minRankDesc vals v2) : v1 = v2 := by
  by_contra hne
  rcases lt_or_gt_of_ne hne with hlt | hgt
  · exact absurd h (Nat.ne_of_gt (minRankDesc_strict h2 hlt))
  · exact absurd h (Nat.ne_of_lt (minRankDesc_strict h1 hgt))

/-- Lift row-level EY/ROC-injectivity through `dropna`. -/
theorem keptRows_inj {l : List RRow}
    (hinj : ∀ a ∈ l, ∀ b ∈ l, a.EY = b.EY → a.ROC = b.ROC → a = b) :
    ∀ x ∈ keptRows l, ∀ y ∈ keptRows l, x.EY = y.EY → x.ROC = y.ROC → x = y := by
  intro x hx y hy he hc
  obtain ⟨a, ha, hax⟩ := List.mem_filterMap.mp hx
  obtain ⟨b, hb, hby⟩ := List.mem_filterMap.mp hy
  rcases haE : a.EY with _ | ae <;> rcases haR : a.ROC with _ | ar <;>
    simp only [dropna, haE, haR] at hax <;>
    try exact Option.noConfusion hax
  rcases hbE : b.EY with _ | be <;> rcases hbR : b.ROC with _ | br <;>
    simp only [dropna, hbE, hbR] at hby <;>
    try exact Option.noConfusion hby
  obtain rfl := Option.some_inj.mp hax
  obtain rfl := Option.some_inj.mp hby
  have hab : a = b := by
    refine hinj a ha b hb ?_ ?_
    · rw [haE, hbE]
      exact congrArg some he
    · rw [haR, hbR]
      exact congrArg some hc
  subst hab
  have hee : ae = be := he
  have hcc : ar = br := hc
  rw [hee, hcc]

/-- Equal rank keys on kept rows force equal rows, given EY/ROC-injectivity. -/
theorem rankRow_inj_of {kept : List Row}
    (hkinj : ∀ x ∈ kept, ∀ y ∈ kept, x.EY = y.EY → x.ROC = y.ROC → x = y)
    {x y : Row} (hx : x ∈ kept) (hy : y ∈ kept)
    (hEY : (rankRow kept x).EY_rank = (rankRow kept y).EY_rank)
    (hROC : (rankRow kept x).ROC_rank = (rankRow kept y).ROC_rank) : x = y := by
  have hxe : x.EY ∈ kept.map (fun s => s.EY) := List.mem_map_of_mem _ hx
  have hye : y.EY ∈ kept.map (fun s => s.EY) := List.mem_map_of_mem _ hy
  have hxc : x.ROC ∈ kept.map (fun s => s.ROC) := List.mem_map_of_mem _ hx
  have hyc : y.ROC ∈ kept.map (fun s => s.ROC) := List.mem_map_of_mem _ hy
  have he : x.EY = y.EY := minRankDesc_inj hxe hye hEY
  have hc : x.ROC = y.ROC := minRankDesc_inj hxc hyc hROC
  exact hkinj x hx y hy he hc

theorem keptRows_perm {l1 l2 : List RRow} (h : l1.Perm l2) :
    (keptRows l1).Perm (keptRows l2) := h.filterMap dropna

theorem rankRow_congr {k1 k2 : List Row} (h : k1.Perm k2) :
    rankRow k1 = rankRow k2 := by
  funext r
  unfold rankRow minRankDesc
  rw [List.Perm.countP_eq _ (h.map (fun s => s.EY)),
    List.Perm.countP_eq _ (h.map (fun s => s.ROC))]

theorem rankedOf_perm {l1 l2 : List RRow} (h : l1.Perm l2) :
    (rankedOf l1).Perm (rankedOf l2) := by
  unfold rankedOf
  have hk := keptRows_perm h
  rw [rankRow_congr hk]
  exact hk.map _

/-- C6 (amended): the ranking is a pure function of the input sequence, and
its output is even independent of input order whenever no two distinct input
records share both EY and ROC; records fully tied on the sort key keep their
input order, so reorderings of such records can reorder the output. -/
theorem magic_formula_rank_order_insensitive (l1 l2 : List RRow)
    (hperm : l1.Perm l2)
    (hinj : ∀ a ∈ l1, ∀ b ∈ l1, a.EY = b.EY → a.ROC = b.ROC → a = b) :
    magic_formula_rank l1 = magic_formula_rank l2 := by
  have hrperm : (rankedOf l1).Perm (rankedOf l2) := rankedOf_perm hperm
  have houtperm : (magic_formula_rank l1).Perm (magic_formula_rank l2) :=
    ((List.perm_insertionSort MfLe (rankedOf l1)).trans hrperm).trans
      (List.perm_insertionSort MfLe (rankedOf l2)).symm
  have hkinj := keptRows_inj hinj
  have helem : ∀ a ∈ rankedOf l1, ∀ b ∈ rankedOf l1,
      a.MF_score = b.MF_score → a.EY_rank = b.EY_rank →
      a.ROC_rank = b.ROC_rank → a = b := by
    intro a ha b hb hm he hc
    obtain ⟨x, hx, rfl⟩ := List.mem_map.mp ha
    obtain ⟨y, hy, rfl⟩ := List.mem_map.mp hb
    rw [rankRow_inj_of hkinj hx hy he hc]
  have hs1 : List.Sorted MfLtEq (magic_formula_rank l1) := by
    refine List.Pairwise.imp_of_mem ?_ (List.sorted_insertionSort MfLe (rankedOf l1))
    intro a b ha hb hle
    have ha2 : a ∈ rankedOf l1 :=
      (List.perm_insertionSort MfLe (rankedOf l1)).mem_iff.mp ha
    have hb2 : b ∈ rankedOf l1 :=
      (List.perm_insertionSort MfLe (rankedOf l1)).mem_iff.mp hb
    rcases mfle_cases a b hle with hlt | ⟨hm, he, hc⟩
    · exact Or.inl hlt
    · exact Or.inr (helem a ha2 b hb2 hm he hc)
  have hs2 : List.Sorted MfLtEq (magic_formula_rank l2) := by
    refine List.Pairwise.imp_of_mem ?_ (List.sorted_insertionSort MfLe (rankedOf l2))
    intro a b ha hb hle
    have ha2 : a ∈ rankedOf l1 := hrperm.symm.subset
      ((List.perm_insertionSort MfLe (rankedOf l2)).mem_iff.mp ha)
    have hb2 : b ∈ rankedOf l1 := hrperm.symm.subset
      ((List.perm_insertionSort MfLe (rankedOf l2)).mem_iff.mp hb)
    rcases mfle_cases a b hle with hlt | ⟨hm, he, hc⟩
    · exact Or.inl hlt
    · exact Or.inr (helem a ha2 b hb2 hm he hc)
  exact List.eq_of_perm_of_sorted houtperm hs1 hs2

/-- C6 witness: two orders of a tie-free concrete input rank identically. -/
theorem magic_formula_rank_order_insensitive_witness :
    magic_formula_rank [c6rowA, c6rowC] = magic_formula_rank [c6rowC, c6rowA] :=
  magic_formula_rank_order_insensitive [c6rowA, c6rowC] [c6rowC, c6rowA]
    (by decide) (by decide)

end MagicFormula
